import Mathlib

/-!
Verification of process_schematics.py.

The script converts EPS schematic plots to PDF.  For each input file it
derives an output base name from the filename (second comma-delimited
segment when the name holds at least two commas, otherwise the name with
its extension stripped), copies the input to a reserved temporary name
"tempfile", runs the external tools eps2eps, epstool, mv and epstopdf in
sequence (aborting the remaining stages on a failure), writes the PDF to
pdf/<base>.pdf, and removes the working file "tempfile.eps".  The main
block parses a -uselibname flag, then either converts a single named file
or every eligible file of the current directory, finally calling
os.remove("tempfile").

The embedding models the working directory as an association list from
path names (lists of characters) to file contents, each external tool as
an oracle giving its exit status, captured stderr bytes and content
transformation, and the observable behaviour (prints, process spawns,
removals) as a trace of events.  Python exceptions are values of an
explicit error type; the try/except structure of process_schematic is the
wrapper around process_body below.
-/

namespace ProcessSchematics

/-- A path name: Python strings are modelled as lists of characters. -/
abbrev Name := List Char

/-- The working directory: an association list from path names to file
contents (plain files only; content is abstract text). -/
abbrev FS := List (Name × String)

/-- Look up a file.  First binding wins, matching the write discipline of
`fsWrite` below. -/
def fsGet : FS → Name → Option String
  | [], _ => none
  | (m, c) :: rest, n => if m = n then some c else fsGet rest n

/-- Delete every binding of a name (models os.remove / the overwrite part
of a file write). -/
def fsRemoveName (fs : FS) (n : Name) : FS :=
  fs.filter (fun e => !(e.1 == n))

/-- Write a file, replacing any previous content under the same name. -/
def fsWrite (fs : FS) (n : Name) (c : String) : FS :=
  (n, c) :: fsRemoveName fs n

/- ## Filename computations of the source -/

/-- `filename.count(',')` of line 44. -/
def commaCount (f : Name) : Nat := f.count ','

/-- Python `str.split(',')` of line 46: split at every comma, keeping
empty segments. -/
def splitComma : List Char → List (List Char)
  | [] => [[]]
  | c :: rest =>
    let r := splitComma rest
    if c = ',' then [] :: r
    else
      match r with
      | [] => [[c]]
      | h :: t => (c :: h) :: t

/-- Python `str.rfind` for a single character: rightmost index, `-1` when
absent. -/
def rfind (c : Char) : List Char → Int
  | [] => -1
  | a :: rest =>
    let r := rfind c rest
    if 0 ≤ r then r + 1
    else if a = c then 0 else -1

/-- `os.path.splitext` of line 49 (posixpath `_splitext` with separator
`/` and extension marker `.`): split at the rightmost dot that lies after
the rightmost slash, unless every character between them is a dot (so a
leading-dot basename has no extension). -/
def splitext (p : List Char) : List Char × List Char :=
  let sepIndex := rfind '/' p
  let dotIndex := rfind '.' p
  if sepIndex < dotIndex then
    let start := (sepIndex + 1).toNat
    let d := dotIndex.toNat
    if ((p.drop start).take (d - start)).all (fun ch => ch == '.') then (p, [])
    else (p.take d, p.drop d)
  else (p, [])

/-- Lines 44-49: the output base name.  At least two commas: the second
comma-delimited segment (`name_parts[1]`); otherwise the filename without
its extension. -/
def pdfName (filename : Name) : Name :=
  if 2 ≤ commaCount filename then
    match splitComma filename with
    | _ :: b :: _ => b
    | _ => []
  else (splitext filename).1

/- ## Reserved names and tool names -/

def tempfileN : Name := "tempfile".toList

def tempfileEpsN : Name := "tempfile.eps".toList

def tempN : Name := "temp".toList

def eps2epsN : Name := "eps2eps".toList

def epstoolN : Name := "epstool".toList

def mvN : Name := "mv".toList

def epstopdfN : Name := "epstopdf".toList

def bboxN : Name := "--bbox".toList

def copyN : Name := "--copy".toList

def pdfDirN : Name := "pdf".toList

def uselibnameN : Name := "-uselibname".toList

def pyExtN : Name := ".py".toList

def pdfExtN : Name := ".pdf".toList

def swpExtN : Name := ".swp".toList

/-- Line 76: the output path `f"pdf/{pdf_name}.pdf"`. -/
def pdfPath (filename : Name) : Name :=
  "pdf/".toList ++ pdfName filename ++ pdfExtN

/- ## External tools and errors -/

/-- One external tool invocation, as observed by the script: either the
binary is missing (Popen raises FileNotFoundError), or the process ran
and delivered an exit status and captured stderr bytes. -/
inductive ToolOutcome where
  | missing
  | ran (returncode : Int) (stderrBytes : List Nat)
  deriving DecidableEq

/-- A tool invocation that ran and exited with status 0. -/
def ToolOutcome.isOkB : ToolOutcome → Bool
  | .missing => false
  | .ran rc _ => rc == 0

/-- Oracle for one call of process_schematic: the outcome of each of the
four stages and, for the stages that write a file, the transformation the
tool applies to the file content. -/
structure Env where
  eps2eps : ToolOutcome
  epstool : ToolOutcome
  mv : ToolOutcome
  epstopdf : ToolOutcome
  eps2epsF : String → String
  epstoolF : String → String
  epstopdfF : String → String

/-- All four stages run and exit 0. -/
def allOkB (env : Env) : Bool :=
  env.eps2eps.isOkB && env.epstool.isOkB && env.mv.isOkB && env.epstopdf.isOkB

/-- The stages in pipeline order. -/
def stageOf (env : Env) : Fin 4 → ToolOutcome
  | ⟨0, _⟩ => env.eps2eps
  | ⟨1, _⟩ => env.epstool
  | ⟨2, _⟩ => env.mv
  | ⟨3, _⟩ => env.epstopdf

/-- The Python exceptions that process_schematic can see.
`calledProcessError` mirrors subprocess.CalledProcessError, whose
constructor signature is `(returncode, cmd, output=None, stderr=None)`:
the THIRD positional argument is `output`.  The raise sites of lines
59/66/72/79 pass the captured stderr bytes as that third positional
argument, so they populate `output` and leave the `stderr` attribute
`None`. -/
inductive PyError where
  | calledProcessError (returncode : Int) (cmd : Name)
      (output : Option (List Nat)) (stderrAttr : Option (List Nat))
  | fileNotFoundError (what : Name)
  | other
  deriving DecidableEq

/-- Observable actions: lines printed and processes spawned. -/
inductive Event where
  | printProcessing (filename : Name)
  | call (tool : Name) (args : List Name)
  | makedirs (dir : Name)
  | removeFile (path : Name)
  | printProcessed (filename : Name)
  | printErrorProcessing (filename : Name) (returncode : Int) (cmd : Name)
  | printStderr (bytes : List Nat)
  | printStderrEmpty
  | printToolNotFound (what : Name)
  | printUnexpected
  | printFileNotFound (filename : Name)
  | printFileExcluded (filename : Name)
  deriving DecidableEq

/-- Python truthiness of the `e.stderr` attribute at line 87: `None` and
empty bytes are falsy. -/
def stderrTruthy : Option (List Nat) → Bool
  | none => false
  | some b => !b.isEmpty

/-- The except clauses of lines 85-94, in source order: CalledProcessError
prints the error line, then the captured stderr or the "Standard error
was empty." note; FileNotFoundError prints the missing-tool line; any
other exception prints the unexpected-error line. -/
def handle (filename : Name) : PyError → List Event
  | .calledProcessError rc cmd _output stderrA =>
    Event.printErrorProcessing filename rc cmd ::
      (if stderrTruthy stderrA then [Event.printStderr (stderrA.getD [])]
       else [Event.printStderrEmpty])
  | .fileNotFoundError m => [Event.printToolNotFound m]
  | .other => [Event.printUnexpected]

/-- The try block of process_schematic (lines 40-83).  An error value
carries the state at the raise point.  shutil.copyfile raises
SameFileError (an `other` exception here) when source and destination are
the same path and FileNotFoundError when the source is missing; each
successful stage writes the file the real tool writes: eps2eps writes
tempfile.eps from tempfile, epstool writes temp from tempfile.eps, mv
renames temp to tempfile.eps, epstopdf writes pdf/<base>.pdf from
tempfile.eps, which is finally removed (line 81). -/
def process_body (env : Env) (fs : FS) (filename : Name)
    (use_libname : Bool) : Except (PyError × FS × List Event) (FS × List Event) :=
  let ev0 : List Event := [Event.printProcessing filename]
  if filename = tempfileN then
    .error (PyError.other, fs, ev0)
  else
    match fsGet fs filename with
    | none => .error (PyError.fileNotFoundError filename, fs, ev0)
    | some c =>
      let fs1 := fsWrite fs tempfileN c
      let ev1 := ev0 ++ [Event.call eps2epsN [tempfileN, tempfileEpsN]]
      match env.eps2eps with
      | .missing => .error (PyError.fileNotFoundError eps2epsN, fs1, ev1)
      | .ran rc1 st1 =>
        if rc1 ≠ 0 then
          .error (PyError.calledProcessError rc1 eps2epsN (some st1) none, fs1, ev1)
        else
          let p1 := env.eps2epsF c
          let fs2 := fsWrite fs1 tempfileEpsN p1
          let ev2 := ev1 ++ [Event.call epstoolN [bboxN, copyN, tempfileEpsN, tempN]]
          match env.epstool with
          | .missing => .error (PyError.fileNotFoundError epstoolN, fs2, ev2)
          | .ran rc2 st2 =>
            if rc2 ≠ 0 then
              .error (PyError.calledProcessError rc2 epstoolN (some st2) none, fs2, ev2)
            else
              let p2 := env.epstoolF p1
              let fs3 := fsWrite fs2 tempN p2
              let ev3 := ev2 ++ [Event.call mvN [tempN, tempfileEpsN]]
              match env.mv with
              | .missing => .error (PyError.fileNotFoundError mvN, fs3, ev3)
              | .ran rc3 st3 =>
                if rc3 ≠ 0 then
                  .error (PyError.calledProcessError rc3 mvN (some st3) none, fs3, ev3)
                else
                  let fs4 := fsWrite (fsRemoveName fs3 tempN) tempfileEpsN p2
                  let ev4 := ev3 ++ [Event.makedirs pdfDirN,
                    Event.call epstopdfN [tempfileEpsN, pdfPath filename]]
                  match env.epstopdf with
                  | .missing => .error (PyError.fileNotFoundError epstopdfN, fs4, ev4)
                  | .ran rc4 st4 =>
                    if rc4 ≠ 0 then
                      .error (PyError.calledProcessError rc4 epstopdfN (some st4) none, fs4, ev4)
                    else
                      let p3 := env.epstopdfF p2
                      let fs5 := fsWrite fs4 (pdfPath filename) p3
                      let fs6 := fsRemoveName fs5 tempfileEpsN
                      let ev5 := ev4 ++ [Event.removeFile tempfileEpsN,
                        Event.printProcessed filename]
                      .ok (fs6, ev5)

/-- process_schematic (lines 38-94): the try block with its except
clauses.  Every modelled exception is caught; the handler appends its
report to the events accumulated up to the raise point. -/
def process_schematic (env : Env) (fs : FS) (filename : Name)
    (use_libname : Bool) : FS × List Event :=
  match process_body env fs filename use_libname with
  | .ok r => r
  | .error (e, fs2, ev) => (fs2, ev ++ handle filename e)

/- ## The main block (lines 96-118) -/

/-- Python `str.endswith(s)`. -/
def endswith (f s : Name) : Bool := decide (s <:+ f)

/-- Python `str.startswith(".")`. -/
def startswithDot : Name → Bool
  | [] => false
  | c :: _ => c == '.'

/-- The filename part of the filter of lines 106 and 116: not a .py, .pdf
or .swp file, not a dotfile, not the reserved temporary name. -/
def nameEligB (f : Name) : Bool :=
  !(endswith f pyExtN || endswith f pdfExtN || endswith f swpExtN)
    && !startswithDot f && !(f == tempfileN)

/-- The full filter of lines 106 and 116: a regular file passing
`nameEligB`. -/
def eligibleB (fs : FS) (f : Name) : Bool :=
  (fsGet fs f).isSome && nameEligB f

/-- The loop of lines 115-117 over a directory listing: convert each
eligible file in turn (skipped files produce no output). -/
def batchLoop (envf : Name → Env) (u : Bool) : FS → List Name → FS × List Event
  | fs, [] => (fs, [])
  | fs, g :: rest =>
    let r := if eligibleB fs g then process_schematic (envf g) fs g u else (fs, [])
    let r2 := batchLoop envf u r.1 rest
    (r2.1, r.2 ++ r2.2)

/-- `os.listdir()` at line 115: the entries of the current directory,
i.e. the tracked paths that contain no slash, listed once before the loop
starts. -/
def listdirN (fs : FS) : List Name :=
  (fs.map (fun e => e.1)).filter (fun n => !(n.contains '/'))

/-- Batch mode (lines 114-118): run the loop over the listing, then
`os.remove("tempfile")` with no surrounding try: when the file is absent
the call raises FileNotFoundError, which nothing catches (the third
component records such an uncaught exception). -/
def main_batch (envf : Name → Env) (fs : FS) (u : Bool) :
    FS × List Event × Option PyError :=
  let r := batchLoop envf u fs (listdirN fs)
  match fsGet r.1 tempfileN with
  | some _ => (fsRemoveName r.1 tempfileN, r.2 ++ [Event.removeFile tempfileN], none)
  | none => (r.1, r.2, some (PyError.fileNotFoundError tempfileN))

/-- Single-file mode (lines 104-112): convert the named file when it is a
regular file passing the filter, otherwise report not-found or
excluded. -/
def main_single (env : Env) (fs : FS) (filename : Name) (u : Bool) :
    FS × List Event :=
  if eligibleB fs filename then process_schematic env fs filename u
  else if (fsGet fs filename).isSome = false then
    (fs, [Event.printFileNotFound filename])
  else
    (fs, [Event.printFileExcluded filename])

/-- The main block (lines 96-118).  `argv` is the full sys.argv including
the program name.  The -uselibname flag is detected by membership, its
first occurrence removed (`list.remove`), and the remaining list decides
the mode: more than one entry selects single-file mode on entry 1,
otherwise batch mode runs. -/
def main (envf : Name → Env) (fs : FS) (argv : List Name) :
    FS × List Event × Option PyError :=
  let use_libname : Bool := decide (uselibnameN ∈ argv)
  let argv1 := if use_libname then argv.erase uselibnameN else argv
  if 1 < argv1.length then
    let filename := (argv1[1]?).getD []
    let r := main_single (envf filename) fs filename use_libname
    (r.1, r.2, none)
  else
    main_batch envf fs use_libname

/- ## Helper lemmas: the filesystem -/

theorem fsGet_write_self (fs : FS) (n : Name) (c : String) :
    fsGet (fsWrite fs n c) n = some c := by
  simp [fsWrite, fsGet]

theorem fsGet_write_ne (fs : FS) (n m : Name) (c : String) (h : m ≠ n) :
    fsGet (fsWrite fs m c) n = fsGet fs n := by
  induction fs with
  | nil => simp [fsWrite, fsGet, fsRemoveName, h]
  | cons e rest ih =>
    by_cases he : e.1 = m
    · have : fsGet (fsWrite rest m c) n = fsGet rest n := by
        simpa [fsWrite, fsGet, fsRemoveName, h] using ih
      obtain ⟨n1, c1⟩ := e
      simp only at he
      subst he
      simp only [fsWrite, fsGet, fsRemoveName, List.filter] at this ⊢
      simp only [beq_self_eq_true, Bool.not_true] at this ⊢
      simpa [fsGet, h] using this
    · obtain ⟨n1, c1⟩ := e
      simp only at he
      by_cases hn1 : n1 = n
      · subst hn1
        simp [fsWrite, fsGet, fsRemoveName, List.filter, h, he,
          beq_eq_false_iff_ne.mpr he]
      · have : fsGet (fsWrite rest m c) n = fsGet rest n := by
          simpa [fsWrite, fsGet, fsRemoveName, h] using ih
        simp only [fsWrite, fsGet, fsRemoveName, List.filter,
          beq_eq_false_iff_ne.mpr he] at this ⊢
        simp only [if_neg h, if_neg hn1]
        simpa [fsGet, h, hn1] using this

theorem fsGet_remove_ne (fs : FS) (n m : Name) (h : m ≠ n) :
    fsGet (fsRemoveName fs m) n = fsGet fs n := by
  induction fs with
  | nil => rfl
  | cons e rest ih =>
    obtain ⟨n1, c1⟩ := e
    by_cases he : n1 = m
    · subst he
      have hne : n1 ≠ n := h
      simp only [fsRemoveName, List.filter, beq_self_eq_true, Bool.not_true,
        fsGet, if_neg hne]
      simpa [fsRemoveName] using ih
    · simp only [fsRemoveName, List.filter, beq_eq_false_iff_ne.mpr he,
        Bool.not_false]
      by_cases hn1 : n1 = n
      · simp [fsGet, hn1]
      · simp only [fsGet, if_neg hn1]
        simpa [fsRemoveName] using ih

theorem fsGet_remove_self (fs : FS) (n : Name) :
    fsGet (fsRemoveName fs n) n = none := by
  induction fs with
  | nil => rfl
  | cons e rest ih =>
    obtain ⟨m, c⟩ := e
    by_cases hm : m = n
    · subst hm
      simpa [fsRemoveName, List.filter] using ih
    · simp only [fsRemoveName, List.filter, beq_eq_false_iff_ne.mpr hm,
        Bool.not_false]
      simp only [fsGet, if_neg hm]
      simpa [fsRemoveName] using ih

/- ## Helper lemmas: reserved names are pairwise distinct -/

theorem pdfPath_cons (f : Name) :
    pdfPath f = 'p' :: 'd' :: 'f' :: '/' :: (pdfName f ++ pdfExtN) := rfl

theorem pdfPath_ne_tempfileN (f : Name) : pdfPath f ≠ tempfileN := by
  intro h
  rw [pdfPath_cons] at h
  simp [tempfileN] at h

theorem pdfPath_ne_tempfileEpsN (f : Name) : pdfPath f ≠ tempfileEpsN := by
  intro h
  rw [pdfPath_cons] at h
  simp [tempfileEpsN] at h

theorem pdfPath_ne_tempN (f : Name) : pdfPath f ≠ tempN := by
  intro h
  rw [pdfPath_cons] at h
  simp [tempN] at h

theorem endswith_pdfPath (f : Name) : endswith (pdfPath f) pdfExtN = true := by
  have : pdfExtN <:+ ("pdf/".toList ++ pdfName f) ++ pdfExtN :=
    List.suffix_append _ _
  simp only [endswith, decide_eq_true_eq, pdfPath, List.append_assoc] at this ⊢
  exact this

theorem ne_pdfPath_of_not_endswith (f : Name) (h : endswith f pdfExtN = false) :
    f ≠ pdfPath f := by
  intro he
  have := endswith_pdfPath f
  rw [← he] at this
  rw [h] at this
  exact Bool.false_ne_true this

/- ## Helper lemmas: splitComma -/

theorem splitComma_ne_nil (f : List Char) : splitComma f ≠ [] := by
  induction f with
  | nil => simp [splitComma]
  | cons c rest ih =>
    simp only [splitComma]
    by_cases hc : c = ','
    · simp [hc]
    · simp only [if_neg hc]
      match h : splitComma rest with
      | [] => simp
      | a :: t => simp

theorem splitComma_length (f : List Char) :
    (splitComma f).length = commaCount f + 1 := by
  induction f with
  | nil => simp [splitComma, commaCount]
  | cons c rest ih =>
    simp only [splitComma]
    by_cases hc : c = ','
    · simp [hc, commaCount, List.count_cons, ih]
    · simp only [if_neg hc]
      match h : splitComma rest with
      | [] => exact absurd h (splitComma_ne_nil rest)
      | a :: t =>
        rw [h] at ih
        simp only [List.length_cons] at ih ⊢
        have hcc : commaCount (c :: rest) = commaCount rest := by
          simp [commaCount, List.count_cons, hc]
        rw [hcc]
        exact ih

/- ## Branch equations for process_schematic -/

theorem ps_eq_samefile (env : Env) (fs : FS) (u : Bool) :
    process_schematic env fs tempfileN u =
      (fs, [Event.printProcessing tempfileN, Event.printUnexpected]) := by
  simp [process_schematic, process_body, handle]

theorem ps_eq_noinput (env : Env) (fs : FS) (g : Name) (u : Bool)
    (hg : g ≠ tempfileN) (hfs : fsGet fs g = none) :
    process_schematic env fs g u =
      (fs, [Event.printProcessing g, Event.printToolNotFound g]) := by
  simp [process_schematic, process_body, handle, hg, hfs]

theorem ps_eq_stage1_missing (env : Env) (fs : FS) (g : Name) (u : Bool) (c : String)
    (hg : g ≠ tempfileN) (hfs : fsGet fs g = some c)
    (h1 : env.eps2eps = ToolOutcome.missing) :
    process_schematic env fs g u =
      (fsWrite fs tempfileN c,
       [Event.printProcessing g, Event.call eps2epsN [tempfileN, tempfileEpsN],
        Event.printToolNotFound eps2epsN]) := by
  simp [process_schematic, process_body, handle, hg, hfs, h1]

theorem ps_eq_stage1_fail (env : Env) (fs : FS) (g : Name) (u : Bool) (c : String)
    (rc : Int) (st : List Nat)
    (hg : g ≠ tempfileN) (hfs : fsGet fs g = some c)
    (h1 : env.eps2eps = ToolOutcome.ran rc st) (hrc : rc ≠ 0) :
    process_schematic env fs g u =
      (fsWrite fs tempfileN c,
       [Event.printProcessing g, Event.call eps2epsN [tempfileN, tempfileEpsN],
        Event.printErrorProcessing g rc eps2epsN, Event.printStderrEmpty]) := by
  simp [process_schematic, process_body, handle, hg, hfs, h1, hrc, stderrTruthy]

theorem ps_eq_stage2_missing (env : Env) (fs : FS) (g : Name) (u : Bool) (c : String)
    (st1 : List Nat)
    (hg : g ≠ tempfileN) (hfs : fsGet fs g = some c)
    (h1 : env.eps2eps = ToolOutcome.ran 0 st1)
    (h2 : env.epstool = ToolOutcome.missing) :
    process_schematic env fs g u =
      (fsWrite (fsWrite fs tempfileN c) tempfileEpsN (env.eps2epsF c),
       [Event.printProcessing g, Event.call eps2epsN [tempfileN, tempfileEpsN],
        Event.call epstoolN [bboxN, copyN, tempfileEpsN, tempN],
        Event.printToolNotFound epstoolN]) := by
  simp [process_schematic, process_body, handle, hg, hfs, h1, h2]

theorem ps_eq_stage2_fail (env : Env) (fs : FS) (g : Name) (u : Bool) (c : String)
    (st1 : List Nat) (rc : Int) (st : List Nat)
    (hg : g ≠ tempfileN) (hfs : fsGet fs g = some c)
    (h1 : env.eps2eps = ToolOutcome.ran 0 st1)
    (h2 : env.epstool = ToolOutcome.ran rc st) (hrc : rc ≠ 0) :
    process_schematic env fs g u =
      (fsWrite (fsWrite fs tempfileN c) tempfileEpsN (env.eps2epsF c),
       [Event.printProcessing g, Event.call eps2epsN [tempfileN, tempfileEpsN],
        Event.call epstoolN [bboxN, copyN, tempfileEpsN, tempN],
        Event.printErrorProcessing g rc epstoolN, Event.printStderrEmpty]) := by
  simp [process_schematic, process_body, handle, hg, hfs, h1, h2, hrc, stderrTruthy]

theorem ps_eq_stage3_missing (env : Env) (fs : FS) (g : Name) (u : Bool) (c : String)
    (st1 st2 : List Nat)
    (hg : g ≠ tempfileN) (hfs : fsGet fs g = some c)
    (h1 : env.eps2eps = ToolOutcome.ran 0 st1)
    (h2 : env.epstool = ToolOutcome.ran 0 st2)
    (h3 : env.mv = ToolOutcome.missing) :
    process_schematic env fs g u =
      (fsWrite (fsWrite (fsWrite fs tempfileN c) tempfileEpsN (env.eps2epsF c))
         tempN (env.epstoolF (env.eps2epsF c)),
       [Event.printProcessing g, Event.call eps2epsN [tempfileN, tempfileEpsN],
        Event.call epstoolN [bboxN, copyN, tempfileEpsN, tempN],
        Event.call mvN [tempN, tempfileEpsN],
        Event.printToolNotFound mvN]) := by
  simp [process_schematic, process_body, handle, hg, hfs, h1, h2, h3]

theorem ps_eq_stage3_fail (env : Env) (fs : FS) (g : Name) (u : Bool) (c : String)
    (st1 st2 : List Nat) (rc : Int) (st : List Nat)
    (hg : g ≠ tempfileN) (hfs : fsGet fs g = some c)
    (h1 : env.eps2eps = ToolOutcome.ran 0 st1)
    (h2 : env.epstool = ToolOutcome.ran 0 st2)
    (h3 : env.mv = ToolOutcome.ran rc st) (hrc : rc ≠ 0) :
    process_schematic env fs g u =
      (fsWrite (fsWrite (fsWrite fs tempfileN c) tempfileEpsN (env.eps2epsF c))
         tempN (env.epstoolF (env.eps2epsF c)),
       [Event.printProcessing g, Event.call eps2epsN [tempfileN, tempfileEpsN],
        Event.call epstoolN [bboxN, copyN, tempfileEpsN, tempN],
        Event.call mvN [tempN, tempfileEpsN],
        Event.printErrorProcessing g rc mvN, Event.printStderrEmpty]) := by
  simp [process_schematic, process_body, handle, hg, hfs, h1, h2, h3, hrc, stderrTruthy]

theorem ps_eq_stage4_missing (env : Env) (fs : FS) (g : Name) (u : Bool) (c : String)
    (st1 st2 st3 : List Nat)
    (hg : g ≠ tempfileN) (hfs : fsGet fs g = some c)
    (h1 : env.eps2eps = ToolOutcome.ran 0 st1)
    (h2 : env.epstool = ToolOutcome.ran 0 st2)
    (h3 : env.mv = ToolOutcome.ran 0 st3)
    (h4 : env.epstopdf = ToolOutcome.missing) :
    process_schematic env fs g u =
      (fsWrite
         (fsRemoveName
           (fsWrite (fsWrite (fsWrite fs tempfileN c) tempfileEpsN (env.eps2epsF c))
             tempN (env.epstoolF (env.eps2epsF c)))
           tempN)
         tempfileEpsN (env.epstoolF (env.eps2epsF c)),
       [Event.printProcessing g, Event.call eps2epsN [tempfileN, tempfileEpsN],
        Event.call epstoolN [bboxN, copyN, tempfileEpsN, tempN],
        Event.call mvN [tempN, tempfileEpsN],
        Event.makedirs pdfDirN,
        Event.call epstopdfN [tempfileEpsN, pdfPath g],
        Event.printToolNotFound epstopdfN]) := by
  simp [process_schematic, process_body, handle, hg, hfs, h1, h2, h3, h4]

theorem ps_eq_stage4_fail (env : Env) (fs : FS) (g : Name) (u : Bool) (c : String)
    (st1 st2 st3 : List Nat) (rc : Int) (st : List Nat)
    (hg : g ≠ tempfileN) (hfs : fsGet fs g = some c)
    (h1 : env.eps2eps = ToolOutcome.ran 0 st1)
    (h2 : env.epstool = ToolOutcome.ran 0 st2)
    (h3 : env.mv = ToolOutcome.ran 0 st3)
    (h4 : env.epstopdf = ToolOutcome.ran rc st) (hrc : rc ≠ 0) :
    process_schematic env fs g u =
      (fsWrite
         (fsRemoveName
           (fsWrite (fsWrite (fsWrite fs tempfileN c) tempfileEpsN (env.eps2epsF c))
             tempN (env.epstoolF (env.eps2epsF c)))
           tempN)
         tempfileEpsN (env.epstoolF (env.eps2epsF c)),
       [Event.printProcessing g, Event.call eps2epsN [tempfileN, tempfileEpsN],
        Event.call epstoolN [bboxN, copyN, tempfileEpsN, tempN],
        Event.call mvN [tempN, tempfileEpsN],
        Event.makedirs pdfDirN,
        Event.call epstopdfN [tempfileEpsN, pdfPath g],
        Event.printErrorProcessing g rc epstopdfN, Event.printStderrEmpty]) := by
  simp [process_schematic, process_body, handle, hg, hfs, h1, h2, h3, h4, hrc,
    stderrTruthy]

theorem ps_eq_ok (env : Env) (fs : FS) (g : Name) (u : Bool) (c : String)
    (st1 st2 st3 st4 : List Nat)
    (hg : g ≠ tempfileN) (hfs : fsGet fs g = some c)
    (h1 : env.eps2eps = ToolOutcome.ran 0 st1)
    (h2 : env.epstool = ToolOutcome.ran 0 st2)
    (h3 : env.mv = ToolOutcome.ran 0 st3)
    (h4 : env.epstopdf = ToolOutcome.ran 0 st4) :
    process_schematic env fs g u =
      (fsRemoveName
         (fsWrite
           (fsWrite
             (fsRemoveName
               (fsWrite (fsWrite (fsWrite fs tempfileN c) tempfileEpsN (env.eps2epsF c))
                 tempN (env.epstoolF (env.eps2epsF c)))
               tempN)
             tempfileEpsN (env.epstoolF (env.eps2epsF c)))
           (pdfPath g) (env.epstopdfF (env.epstoolF (env.eps2epsF c))))
         tempfileEpsN,
       [Event.printProcessing g, Event.call eps2epsN [tempfileN, tempfileEpsN],
        Event.call epstoolN [bboxN, copyN, tempfileEpsN, tempN],
        Event.call mvN [tempN, tempfileEpsN],
        Event.makedirs pdfDirN,
        Event.call epstopdfN [tempfileEpsN, pdfPath g],
        Event.removeFile tempfileEpsN,
        Event.printProcessed g]) := by
  simp [process_schematic, process_body, hg, hfs, h1, h2, h3, h4]

/- ## Master characterization -/

/-- Marks every event other than a `Processing:` line. -/
def notPP : Event → Bool
  | .printProcessing _ => false
  | _ => true

theorem allOk_dest (env : Env) (h : allOkB env = true) :
    ∃ st1 st2 st3 st4,
      env.eps2eps = ToolOutcome.ran 0 st1 ∧ env.epstool = ToolOutcome.ran 0 st2 ∧
      env.mv = ToolOutcome.ran 0 st3 ∧ env.epstopdf = ToolOutcome.ran 0 st4 := by
  obtain ⟨o1, o2, o3, o4, t1, t2, t3⟩ := env
  simp only [allOkB, Bool.and_eq_true] at h
  obtain ⟨⟨⟨k1, k2⟩, k3⟩, k4⟩ := h
  cases o1 with
  | missing => exact absurd k1 (by simp [ToolOutcome.isOkB])
  | ran rc1 s1 =>
    cases o2 with
    | missing => exact absurd k2 (by simp [ToolOutcome.isOkB])
    | ran rc2 s2 =>
      cases o3 with
      | missing => exact absurd k3 (by simp [ToolOutcome.isOkB])
      | ran rc3 s3 =>
        cases o4 with
        | missing => exact absurd k4 (by simp [ToolOutcome.isOkB])
        | ran rc4 s4 =>
          simp only [ToolOutcome.isOkB, beq_iff_eq] at k1 k2 k3 k4
          subst k1; subst k2; subst k3; subst k4
          exact ⟨s1, s2, s3, s4, rfl, rfl, rfl, rfl⟩

/-- Whatever the tools do, one call of process_schematic touches only the
reserved working names and the output path, and its trace is one
`Processing:` line followed by events that are not `Processing:`
lines. -/
theorem process_schematic_chars (env : Env) (fs : FS) (g : Name) (u : Bool) :
    (∀ f, f ≠ tempfileN → f ≠ tempfileEpsN → f ≠ tempN → f ≠ pdfPath g →
      fsGet (process_schematic env fs g u).1 f = fsGet fs f) ∧
    (∃ t, (process_schematic env fs g u).2 = Event.printProcessing g :: t ∧
      t.all notPP = true) ∧
    (∀ b, Event.printStderr b ∉ (process_schematic env fs g u).2) := by
  by_cases hg : g = tempfileN
  · subst hg
    rw [ps_eq_samefile]
    exact ⟨fun f _ _ _ _ => rfl, ⟨_, rfl, rfl⟩, fun b => by simp⟩
  · cases hfs : fsGet fs g with
    | none =>
      rw [ps_eq_noinput env fs g u hg hfs]
      exact ⟨fun f _ _ _ _ => rfl, ⟨_, rfl, rfl⟩, fun b => by simp⟩
    | some c =>
      cases h1 : env.eps2eps with
      | missing =>
        rw [ps_eq_stage1_missing env fs g u c hg hfs h1]
        refine ⟨fun f hh1 _ _ _ => ?_, ⟨_, rfl, rfl⟩, fun b => by simp⟩
        rw [fsGet_write_ne fs f tempfileN c (Ne.symm hh1)]
      | ran rc1 s1 =>
        by_cases hrc1 : rc1 = 0
        · subst hrc1
          cases h2 : env.epstool with
          | missing =>
            rw [ps_eq_stage2_missing env fs g u c s1 hg hfs h1 h2]
            refine ⟨fun f hh1 hh2 _ _ => ?_, ⟨_, rfl, rfl⟩, fun b => by simp⟩
            rw [fsGet_write_ne _ _ _ _ (Ne.symm hh2),
              fsGet_write_ne _ _ _ _ (Ne.symm hh1)]
          | ran rc2 s2 =>
            by_cases hrc2 : rc2 = 0
            · subst hrc2
              cases h3 : env.mv with
              | missing =>
                rw [ps_eq_stage3_missing env fs g u c s1 s2 hg hfs h1 h2 h3]
                refine ⟨fun f hh1 hh2 hh3 _ => ?_, ⟨_, rfl, rfl⟩, fun b => by simp⟩
                rw [fsGet_write_ne _ _ _ _ (Ne.symm hh3),
                  fsGet_write_ne _ _ _ _ (Ne.symm hh2),
                  fsGet_write_ne _ _ _ _ (Ne.symm hh1)]
              | ran rc3 s3 =>
                by_cases hrc3 : rc3 = 0
                · subst hrc3
                  cases h4 : env.epstopdf with
                  | missing =>
                    rw [ps_eq_stage4_missing env fs g u c s1 s2 s3 hg hfs h1 h2 h3 h4]
                    refine ⟨fun f hh1 hh2 hh3 _ => ?_, ⟨_, rfl, rfl⟩, fun b => by simp⟩
                    rw [fsGet_write_ne _ _ _ _ (Ne.symm hh2),
                      fsGet_remove_ne _ _ _ (Ne.symm hh3),
                      fsGet_write_ne _ _ _ _ (Ne.symm hh3),
                      fsGet_write_ne _ _ _ _ (Ne.symm hh2),
                      fsGet_write_ne _ _ _ _ (Ne.symm hh1)]
                  | ran rc4 s4 =>
                    by_cases hrc4 : rc4 = 0
                    · subst hrc4
                      rw [ps_eq_ok env fs g u c s1 s2 s3 s4 hg hfs h1 h2 h3 h4]
                      refine ⟨fun f hh1 hh2 hh3 hh4 => ?_, ⟨_, rfl, rfl⟩, fun b => by simp⟩
                      rw [fsGet_remove_ne _ _ _ (Ne.symm hh2),
                        fsGet_write_ne _ _ _ _ (Ne.symm hh4),
                        fsGet_write_ne _ _ _ _ (Ne.symm hh2),
                        fsGet_remove_ne _ _ _ (Ne.symm hh3),
                        fsGet_write_ne _ _ _ _ (Ne.symm hh3),
                        fsGet_write_ne _ _ _ _ (Ne.symm hh2),
                        fsGet_write_ne _ _ _ _ (Ne.symm hh1)]
                    · rw [ps_eq_stage4_fail env fs g u c s1 s2 s3 rc4 s4 hg hfs h1 h2 h3 h4 hrc4]
                      refine ⟨fun f hh1 hh2 hh3 _ => ?_, ⟨_, rfl, rfl⟩, fun b => by simp⟩
                      rw [fsGet_write_ne _ _ _ _ (Ne.symm hh2),
                        fsGet_remove_ne _ _ _ (Ne.symm hh3),
                        fsGet_write_ne _ _ _ _ (Ne.symm hh3),
                        fsGet_write_ne _ _ _ _ (Ne.symm hh2),
                        fsGet_write_ne _ _ _ _ (Ne.symm hh1)]
                · rw [ps_eq_stage3_fail env fs g u c s1 s2 rc3 s3 hg hfs h1 h2 h3 hrc3]
                  refine ⟨fun f hh1 hh2 hh3 _ => ?_, ⟨_, rfl, rfl⟩, fun b => by simp⟩
                  rw [fsGet_write_ne _ _ _ _ (Ne.symm hh3),
                    fsGet_write_ne _ _ _ _ (Ne.symm hh2),
                    fsGet_write_ne _ _ _ _ (Ne.symm hh1)]
            · rw [ps_eq_stage2_fail env fs g u c s1 rc2 s2 hg hfs h1 h2 hrc2]
              refine ⟨fun f hh1 hh2 _ _ => ?_, ⟨_, rfl, rfl⟩, fun b => by simp⟩
              rw [fsGet_write_ne _ _ _ _ (Ne.symm hh2),
                fsGet_write_ne _ _ _ _ (Ne.symm hh1)]
        · rw [ps_eq_stage1_fail env fs g u c rc1 s1 hg hfs h1 hrc1]
          refine ⟨fun f hh1 _ _ _ => ?_, ⟨_, rfl, rfl⟩, fun b => by simp⟩
          rw [fsGet_write_ne fs f tempfileN c (Ne.symm hh1)]

/- ## Further shared helpers -/

theorem isOk_dest (o : ToolOutcome) (h : o.isOkB = true) :
    ∃ st, o = ToolOutcome.ran 0 st := by
  cases o with
  | missing => simp [ToolOutcome.isOkB] at h
  | ran rc s =>
    simp only [ToolOutcome.isOkB, beq_iff_eq] at h
    subst h
    exact ⟨s, rfl⟩

/-- The process spawns among the events, in order, with their argument
lists. -/
def callsOf (evs : List Event) : List (Name × List Name) :=
  evs.filterMap (fun e =>
    match e with
    | Event.call t a => some (t, a)
    | _ => none)

/-- The four stage invocations of the pipeline, in source order (lines
56, 63, 69, 76). -/
def stageCalls (filename : Name) : List (Name × List Name) :=
  [(eps2epsN, [tempfileN, tempfileEpsN]),
   (epstoolN, [bboxN, copyN, tempfileEpsN, tempN]),
   (mvN, [tempN, tempfileEpsN]),
   (epstopdfN, [tempfileEpsN, pdfPath filename])]

/-- One unfolding step of the batch loop. -/
theorem batchLoop_cons (envf : Name → Env) (u : Bool) (fs : FS) (g : Name)
    (rest : List Name) :
    batchLoop envf u fs (g :: rest) =
      (let r := if eligibleB fs g then process_schematic (envf g) fs g u
                else (fs, []);
       ((batchLoop envf u r.1 rest).1, r.2 ++ (batchLoop envf u r.1 rest).2)) := rfl

/-- A `Processing:` line in the batch trace can only belong to a file
that passes the name filter. -/
theorem batchLoop_pp_mem (envf : Name → Env) (u : Bool) :
    ∀ (names : List Name) (fs : FS) (f : Name),
      Event.printProcessing f ∈ (batchLoop envf u fs names).2 →
      nameEligB f = true := by
  intro names
  induction names with
  | nil =>
    intro fs f h
    simp [batchLoop] at h
  | cons g rest ih =>
    intro fs f h
    rw [batchLoop_cons] at h
    simp only [List.mem_append] at h
    rcases h with h | h
    · by_cases he : eligibleB fs g = true
      · rw [if_pos he] at h
        obtain ⟨-, ⟨t, ht, hall⟩, -⟩ := process_schematic_chars (envf g) fs g u
        rw [ht] at h
        rcases List.mem_cons.mp h with heq | hmem
        · obtain rfl : f = g := by injection heq
          have he2 := he
          simp only [eligibleB, Bool.and_eq_true] at he2
          exact he2.2
        · have := (List.all_eq_true.mp hall) _ hmem
          simp [notPP] at this
      · rw [if_neg he] at h
        simp at h
    · exact ih _ f h

/-- process_schematic never reads its use_libname parameter, so the flag
value cannot change its result. -/
theorem process_ignores_libname (env : Env) (fs : FS) (f : Name) :
    process_schematic env fs f true = process_schematic env fs f false := rfl

theorem batchLoop_ignores_libname (envf : Name → Env) :
    ∀ (names : List Name) (fs : FS),
      batchLoop envf true fs names = batchLoop envf false fs names := by
  intro names
  induction names with
  | nil => intro fs; rfl
  | cons g rest ih =>
    intro fs
    rw [batchLoop_cons, batchLoop_cons]
    have hr : (if eligibleB fs g then process_schematic (envf g) fs g true
        else (fs, []))
        = (if eligibleB fs g then process_schematic (envf g) fs g false
        else (fs, [])) := by
      rw [process_ignores_libname]
    simp only [hr, ih]

theorem main_batch_ignores_libname (envf : Name → Env) (fs : FS) :
    main_batch envf fs true = main_batch envf fs false := by
  simp only [main_batch, batchLoop_ignores_libname]

theorem main_single_ignores_libname (env : Env) (fs : FS) (f : Name) :
    main_single env fs f true = main_single env fs f false := rfl

/- ## Concrete instances used by witnesses and counterexamples -/

/-- All four tools succeed and copy content unchanged. -/
def envOK : Env :=
  ⟨ToolOutcome.ran 0 [], ToolOutcome.ran 0 [], ToolOutcome.ran 0 [],
   ToolOutcome.ran 0 [], id, id, id⟩

/-- eps2eps exits 1 with stderr bytes "boom"; the rest would succeed. -/
def envBoom : Env :=
  ⟨ToolOutcome.ran 1 [98, 111, 111, 109], ToolOutcome.ran 0 [],
   ToolOutcome.ran 0 [], ToolOutcome.ran 0 [], id, id, id⟩

/-- epstool exits 1; eps2eps succeeds. -/
def envFail2 : Env :=
  ⟨ToolOutcome.ran 0 [], ToolOutcome.ran 1 [7], ToolOutcome.ran 0 [],
   ToolOutcome.ran 0 [], id, id, id⟩

/-- The eps2eps binary is missing. -/
def envMissing1 : Env :=
  ⟨ToolOutcome.missing, ToolOutcome.ran 0 [], ToolOutcome.ran 0 [],
   ToolOutcome.ran 0 [], id, id, id⟩

/-- Sample input with two commas in the name. -/
def fileW : Name := "A,chip_top,B.eps".toList

/-- Sample plain input name. -/
def fileA : Name := "a.eps".toList

/- ## Claims -/

/-- C1: for every processed input file whose name contains at least two
commas, the output PDF base name is the second comma-delimited segment of
the filename, and for fewer than two commas it is the filename with its
extension stripped; in both cases the PDF is written as
pdf/<base name>.pdf (with the content produced by the tool chain). -/
theorem C1_pdf_naming (env : Env) (fs : FS) (f : Name) (u : Bool) (c : String)
    (hok : allOkB env = true) (hf : fsGet fs f = some c) (hn : f ≠ tempfileN) :
    fsGet (process_schematic env fs f u).1 (pdfPath f) =
      some (env.epstopdfF (env.epstoolF (env.eps2epsF c))) ∧
    (2 ≤ commaCount f → (splitComma f)[1]? = some (pdfName f)) ∧
    (commaCount f < 2 → pdfName f = (splitext f).1) := by
  obtain ⟨st1, st2, st3, st4, h1, h2, h3, h4⟩ := allOk_dest env hok
  refine ⟨?_, ?_, ?_⟩
  · rw [ps_eq_ok env fs f u c st1 st2 st3 st4 hn hf h1 h2 h3 h4]
    rw [fsGet_remove_ne _ _ _ (Ne.symm (pdfPath_ne_tempfileEpsN f))]
    exact fsGet_write_self _ _ _
  · intro h
    have hl := splitComma_length f
    rcases hsp : splitComma f with _ | ⟨a, _ | ⟨b, t⟩⟩
    · exact absurd hsp (splitComma_ne_nil f)
    · rw [hsp] at hl
      simp only [List.length_singleton] at hl
      omega
    · simp only [pdfName, if_pos h, hsp, List.getElem?_cons_succ,
        List.getElem?_cons_zero]
  · intro h
    simp only [pdfName, if_neg (Nat.not_le.mpr h)]

/-- Witness for C1 at the spec example `A,chip_top,B.eps`. -/
theorem C1_pdf_naming_witness :
    fsGet (process_schematic envOK [(fileW, "X")] fileW false).1 (pdfPath fileW) =
      some (envOK.epstopdfF (envOK.epstoolF (envOK.eps2epsF "X"))) ∧
    (2 ≤ commaCount fileW → (splitComma fileW)[1]? = some (pdfName fileW)) ∧
    (commaCount fileW < 2 → pdfName fileW = (splitext fileW).1) :=
  C1_pdf_naming envOK [(fileW, "X")] fileW false "X" (by decide) (by decide)
    (by decide)

/-- C2 counterexample: a fully successful conversion of `a.eps` both
prints the `Processed:` line and still leaves the working copy
"tempfile" in the filesystem, so a residual temporary artifact remains
after a successful conversion. -/
theorem C2_residual_tempfile_counterexample :
    Event.printProcessed fileA ∈
      (process_schematic envOK [(fileA, "X")] fileA false).2 ∧
    fsGet (process_schematic envOK [(fileA, "X")] fileA false).1 tempfileN =
      some "X" := by
  decide

/-- C2 (amended): at the end of one file's processing, a successful
conversion has removed the stage temporaries "tempfile.eps" and "temp",
but the initial working copy "tempfile" remains in the working directory
(it is only deleted after the batch loop); and a conversion whose first
stage exits non-zero also leaves "tempfile" behind. -/
theorem C2_cleanup_amended (env : Env) (fs : FS) (g : Name) (u : Bool)
    (c : String) (hg : g ≠ tempfileN) (hf : fsGet fs g = some c) :
    (allOkB env = true →
      fsGet (process_schematic env fs g u).1 tempfileEpsN = none ∧
      fsGet (process_schematic env fs g u).1 tempN = none ∧
      fsGet (process_schematic env fs g u).1 tempfileN = some c) ∧
    (∀ (rc : Int) (st : List Nat), rc ≠ 0 →
      env.eps2eps = ToolOutcome.ran rc st →
      fsGet (process_schematic env fs g u).1 tempfileN = some c) := by
  constructor
  · intro hok
    obtain ⟨st1, st2, st3, st4, h1, h2, h3, h4⟩ := allOk_dest env hok
    rw [ps_eq_ok env fs g u c st1 st2 st3 st4 hg hf h1 h2 h3 h4]
    refine ⟨?_, ?_, ?_⟩
    · exact fsGet_remove_self _ _
    · rw [fsGet_remove_ne _ _ _ (by decide : tempfileEpsN ≠ tempN),
        fsGet_write_ne _ _ _ _ (pdfPath_ne_tempN g),
        fsGet_write_ne _ _ _ _ (by decide : tempfileEpsN ≠ tempN)]
      exact fsGet_remove_self _ _
    · rw [fsGet_remove_ne _ _ _ (by decide : tempfileEpsN ≠ tempfileN),
        fsGet_write_ne _ _ _ _ (pdfPath_ne_tempfileN g),
        fsGet_write_ne _ _ _ _ (by decide : tempfileEpsN ≠ tempfileN),
        fsGet_remove_ne _ _ _ (by decide : tempN ≠ tempfileN),
        fsGet_write_ne _ _ _ _ (by decide : tempN ≠ tempfileN),
        fsGet_write_ne _ _ _ _ (by decide : tempfileEpsN ≠ tempfileN)]
      exact fsGet_write_self _ _ _
  · intro rc st hrc h1
    rw [ps_eq_stage1_fail env fs g u c rc st hg hf h1 hrc]
    exact fsGet_write_self _ _ _

/-- Witness for C2 (amended) on a successful conversion of `a.eps`. -/
theorem C2_cleanup_amended_witness :
    fsGet (process_schematic envOK [(fileA, "X")] fileA false).1 tempfileEpsN
      = none ∧
    fsGet (process_schematic envOK [(fileA, "X")] fileA false).1 tempN
      = none ∧
    fsGet (process_schematic envOK [(fileA, "X")] fileA false).1 tempfileN
      = some "X" :=
  (C2_cleanup_amended envOK [(fileA, "X")] fileA false "X" (by decide)
    (by decide)).1 (by decide)

/-- C3: the four external-tool stages are spawned in the fixed order
eps2eps, epstool --bbox --copy, mv, epstopdf (the full sequence runs when
every stage succeeds); a non-zero exit of stage i cuts the spawned calls
to the first i+1 of that sequence, leaves the output PDF path untouched,
and the batch loop still continues with the remaining files exactly as
its unfolding prescribes. -/
theorem C3_stage_order (env : Env) (fs : FS) (g : Name) (u : Bool) (c : String)
    (hg : g ≠ tempfileN) (hf : fsGet fs g = some c)
    (i : Fin 4) (rc : Int) (st : List Nat)
    (hstage : stageOf env i = ToolOutcome.ran rc st) (hrc : rc ≠ 0)
    (hpre : ∀ j : Fin 4, j.1 < i.1 → (stageOf env j).isOkB = true) :
    callsOf (process_schematic env fs g u).2 = (stageCalls g).take (i.1 + 1) ∧
    fsGet (process_schematic env fs g u).1 (pdfPath g) = fsGet fs (pdfPath g) ∧
    (∀ env2 : Env, allOkB env2 = true →
      callsOf (process_schematic env2 fs g u).2 = stageCalls g) ∧
    (∀ (envf : Name → Env) (u2 : Bool) (fs2 : FS) (rest : List Name),
      batchLoop envf u2 fs2 (g :: rest) =
        (let r := if eligibleB fs2 g then process_schematic (envf g) fs2 g u2
                  else (fs2, []);
         ((batchLoop envf u2 r.1 rest).1, r.2 ++ (batchLoop envf u2 r.1 rest).2))) := by
  have hmain :
      callsOf (process_schematic env fs g u).2 = (stageCalls g).take (i.1 + 1) ∧
      fsGet (process_schematic env fs g u).1 (pdfPath g) = fsGet fs (pdfPath g) := by
    fin_cases i
    · have h1 : env.eps2eps = ToolOutcome.ran rc st := hstage
      rw [ps_eq_stage1_fail env fs g u c rc st hg hf h1 hrc]
      refine ⟨rfl, ?_⟩
      exact fsGet_write_ne _ _ _ _ (Ne.symm (pdfPath_ne_tempfileN g))
    · obtain ⟨s1, h1⟩ := isOk_dest _ (hpre ⟨0, by omega⟩ (by decide))
      have h2 : env.epstool = ToolOutcome.ran rc st := hstage
      rw [ps_eq_stage2_fail env fs g u c s1 rc st hg hf h1 h2 hrc]
      refine ⟨rfl, ?_⟩
      rw [fsGet_write_ne _ _ _ _ (Ne.symm (pdfPath_ne_tempfileEpsN g))]
      exact fsGet_write_ne _ _ _ _ (Ne.symm (pdfPath_ne_tempfileN g))
    · obtain ⟨s1, h1⟩ := isOk_dest _ (hpre ⟨0, by omega⟩ (by decide))
      obtain ⟨s2, h2⟩ := isOk_dest _ (hpre ⟨1, by omega⟩ (by decide))
      have h3 : env.mv = ToolOutcome.ran rc st := hstage
      rw [ps_eq_stage3_fail env fs g u c s1 s2 rc st hg hf h1 h2 h3 hrc]
      refine ⟨rfl, ?_⟩
      rw [fsGet_write_ne _ _ _ _ (Ne.symm (pdfPath_ne_tempN g)),
        fsGet_write_ne _ _ _ _ (Ne.symm (pdfPath_ne_tempfileEpsN g))]
      exact fsGet_write_ne _ _ _ _ (Ne.symm (pdfPath_ne_tempfileN g))
    · obtain ⟨s1, h1⟩ := isOk_dest _ (hpre ⟨0, by omega⟩ (by decide))
      obtain ⟨s2, h2⟩ := isOk_dest _ (hpre ⟨1, by omega⟩ (by decide))
      obtain ⟨s3, h3⟩ := isOk_dest _ (hpre ⟨2, by omega⟩ (by decide))
      have h4 : env.epstopdf = ToolOutcome.ran rc st := hstage
      rw [ps_eq_stage4_fail env fs g u c s1 s2 s3 rc st hg hf h1 h2 h3 h4 hrc]
      refine ⟨rfl, ?_⟩
      rw [fsGet_write_ne _ _ _ _ (Ne.symm (pdfPath_ne_tempfileEpsN g)),
        fsGet_remove_ne _ _ _ (Ne.symm (pdfPath_ne_tempN g)),
        fsGet_write_ne _ _ _ _ (Ne.symm (pdfPath_ne_tempN g)),
        fsGet_write_ne _ _ _ _ (Ne.symm (pdfPath_ne_tempfileEpsN g))]
      exact fsGet_write_ne _ _ _ _ (Ne.symm (pdfPath_ne_tempfileN g))
  refine ⟨hmain.1, hmain.2, ?_, ?_⟩
  · intro env2 hok
    obtain ⟨st1, st2, st3, st4, h1, h2, h3, h4⟩ := allOk_dest env2 hok
    rw [ps_eq_ok env2 fs g u c st1 st2 st3 st4 hg hf h1 h2 h3 h4]
    rfl
  · intro envf u2 fs2 rest
    exact batchLoop_cons envf u2 fs2 g rest

/-- Witness for C3: epstool (stage 2, index 1) exits 1 on `a.eps`. -/
theorem C3_stage_order_witness :
    callsOf (process_schematic envFail2 [(fileA, "X")] fileA false).2 =
      (stageCalls fileA).take 2 ∧
    fsGet (process_schematic envFail2 [(fileA, "X")] fileA false).1
        (pdfPath fileA) =
      fsGet [(fileA, "X")] (pdfPath fileA) ∧
    (∀ env2 : Env, allOkB env2 = true →
      callsOf (process_schematic env2 [(fileA, "X")] fileA false).2 =
        stageCalls fileA) ∧
    (∀ (envf : Name → Env) (u2 : Bool) (fs2 : FS) (rest : List Name),
      batchLoop envf u2 fs2 (fileA :: rest) =
        (let r := if eligibleB fs2 fileA
                  then process_schematic (envf fileA) fs2 fileA u2
                  else (fs2, []);
         ((batchLoop envf u2 r.1 rest).1,
          r.2 ++ (batchLoop envf u2 r.1 rest).2))) :=
  C3_stage_order envFail2 [(fileA, "X")] fileA false "X" (by decide) (by decide)
    ⟨1, by omega⟩ 1 [7] rfl (by decide) (by decide)

/-- Marks the events that witness an attempted conversion: the
`Processing:` line that opens process_schematic and any spawned
process. -/
def isAttempt : Event → Bool
  | .printProcessing _ => true
  | .call _ _ => true
  | _ => false

theorem nameElig_false_of_excluded (f : Name)
    (hex : (endswith f pyExtN || endswith f pdfExtN || endswith f swpExtN
            || startswithDot f || f == tempfileN) = true) :
    nameEligB f = false := by
  simp only [Bool.or_eq_true] at hex
  rcases hex with ((((e1 | e2) | e3) | e4) | e5)
  · simp [nameEligB, e1]
  · simp [nameEligB, e2]
  · simp [nameEligB, e3]
  · simp [nameEligB, e4]
  · simp [nameEligB, e5]

/-- C4: for every path ending in .py, .pdf or .swp, or starting with a
dot, or equal to the reserved name "tempfile", single-file mode emits no
conversion attempt (no Processing: line, no spawned process) and batch
mode never opens a conversion of that path. -/
theorem C4_excluded_never_attempted (env : Env) (envf : Name → Env) (fs : FS)
    (f : Name) (u : Bool)
    (hex : (endswith f pyExtN || endswith f pdfExtN || endswith f swpExtN
            || startswithDot f || f == tempfileN) = true) :
    (main_single env fs f u).2.all (fun e => !(isAttempt e)) = true ∧
    Event.printProcessing f ∉ (main_batch envf fs u).2.1 := by
  have hne : nameEligB f = false := nameElig_false_of_excluded f hex
  have helig : eligibleB fs f = false := by simp [eligibleB, hne]
  constructor
  · unfold main_single
    rw [helig]
    simp only [Bool.false_eq_true, if_false]
    split
    · rfl
    · rfl
  · intro hmem
    have hpp : nameEligB f = true := by
      simp only [main_batch] at hmem
      split at hmem
      · simp only [List.mem_append] at hmem
        rcases hmem with hmem | hmem
        · exact batchLoop_pp_mem envf u _ fs f hmem
        · simp at hmem
      · exact batchLoop_pp_mem envf u _ fs f hmem
    rw [hne] at hpp
    exact Bool.false_ne_true hpp

/-- Witness for C4 at the excluded input `notes.py`. -/
theorem C4_excluded_never_attempted_witness :
    (main_single envOK [("notes.py".toList, "Y"), (fileA, "X")]
        "notes.py".toList false).2.all (fun e => !(isAttempt e)) = true ∧
    Event.printProcessing "notes.py".toList ∉
      (main_batch (fun _ => envOK) [("notes.py".toList, "Y"), (fileA, "X")]
        false).2.1 :=
  C4_excluded_never_attempted envOK (fun _ => envOK)
    [("notes.py".toList, "Y"), (fileA, "X")] "notes.py".toList false (by decide)

/-- C5: every error raised inside one file's conversion is caught by
process_schematic and turned into a non-empty report appended to the
trace (the function always returns normally); the batch loop then
proceeds with the remaining files exactly as its unfolding prescribes,
and the only uncaught error a whole batch run can produce is the
FileNotFoundError of the final os.remove("tempfile"), which lies after
every conversion. -/
theorem C5_failures_isolated (env : Env) (fs : FS) (f : Name) (u : Bool)
    (e : PyError) (fs2 : FS) (ev : List Event)
    (herr : process_body env fs f u = Except.error (e, fs2, ev)) :
    process_schematic env fs f u = (fs2, ev ++ handle f e) ∧
    handle f e ≠ [] ∧
    (∀ (envf : Name → Env) (u2 : Bool) (fs3 : FS) (rest : List Name),
      batchLoop envf u2 fs3 (f :: rest) =
        (let r := if eligibleB fs3 f then process_schematic (envf f) fs3 f u2
                  else (fs3, []);
         ((batchLoop envf u2 r.1 rest).1, r.2 ++ (batchLoop envf u2 r.1 rest).2))) ∧
    (∀ (envf : Name → Env) (fs3 : FS) (u2 : Bool),
      (main_batch envf fs3 u2).2.2 = none ∨
      (main_batch envf fs3 u2).2.2 = some (PyError.fileNotFoundError tempfileN)) := by
  refine ⟨?_, ?_, ?_, ?_⟩
  · unfold process_schematic
    rw [herr]
  · cases e with
    | calledProcessError rc cmd o s =>
      simp only [handle]
      split
      · simp
      · simp
    | fileNotFoundError m => simp [handle]
    | other => simp [handle]
  · intro envf u2 fs3 rest
    exact batchLoop_cons envf u2 fs3 f rest
  · intro envf fs3 u2
    simp only [main_batch]
    split
    · left; rfl
    · right; rfl

/-- Witness for C5: the eps2eps binary is missing on `a.eps`. -/
theorem C5_failures_isolated_witness :
    process_schematic envMissing1 [(fileA, "X")] fileA false =
      (fsWrite [(fileA, "X")] tempfileN "X",
       [Event.printProcessing fileA,
        Event.call eps2epsN [tempfileN, tempfileEpsN]] ++
         handle fileA (PyError.fileNotFoundError eps2epsN)) ∧
    handle fileA (PyError.fileNotFoundError eps2epsN) ≠ [] ∧
    (∀ (envf : Name → Env) (u2 : Bool) (fs3 : FS) (rest : List Name),
      batchLoop envf u2 fs3 (fileA :: rest) =
        (let r := if eligibleB fs3 fileA
                  then process_schematic (envf fileA) fs3 fileA u2
                  else (fs3, []);
         ((batchLoop envf u2 r.1 rest).1, r.2 ++ (batchLoop envf u2 r.1 rest).2))) ∧
    (∀ (envf : Name → Env) (fs3 : FS) (u2 : Bool),
      (main_batch envf fs3 u2).2.2 = none ∨
      (main_batch envf fs3 u2).2.2 = some (PyError.fileNotFoundError tempfileN)) :=
  C5_failures_isolated envMissing1 [(fileA, "X")] fileA false
    (PyError.fileNotFoundError eps2epsN) (fsWrite [(fileA, "X")] tempfileN "X")
    [Event.printProcessing fileA, Event.call eps2epsN [tempfileN, tempfileEpsN]]
    rfl

/-- C6 counterexample: a batch run over an empty directory reaches the
final os.remove("tempfile") with the file absent, and the removal step
does not succeed: it raises an uncaught FileNotFoundError. -/
theorem C6_remove_absent_counterexample :
    (main_batch (fun _ => envOK) [] false).2.2 =
      some (PyError.fileNotFoundError tempfileN) := by
  decide

/-- C6 (amended): after the batch loop, os.remove("tempfile") runs
unconditionally: the run ends cleanly exactly when "tempfile" exists
after the loop, in which case it is removed; when it is absent the
removal raises an uncaught FileNotFoundError that terminates the run. -/
theorem C6_remove_amended (envf : Name → Env) (fs : FS) (u : Bool) :
    ((main_batch envf fs u).2.2 = none ↔
      (fsGet (batchLoop envf u fs (listdirN fs)).1 tempfileN).isSome = true) ∧
    ((main_batch envf fs u).2.2 = none →
      fsGet (main_batch envf fs u).1 tempfileN = none) ∧
    ((main_batch envf fs u).2.2 ≠ none →
      (main_batch envf fs u).2.2 = some (PyError.fileNotFoundError tempfileN)) := by
  rcases h : fsGet (batchLoop envf u fs (listdirN fs)).1 tempfileN with _ | c
  · refine ⟨?_, ?_, ?_⟩ <;> simp [main_batch, h]
  · refine ⟨?_, ?_, ?_⟩ <;> simp [main_batch, h, fsGet_remove_self]

/-- Witness for C6 (amended): a directory holding just `a.eps` converts
it, leaves "tempfile" for the final removal, and the run ends cleanly
with "tempfile" gone. -/
theorem C6_remove_amended_witness :
    (main_batch (fun _ => envOK) [(fileA, "X")] false).2.2 = none ∧
    fsGet (main_batch (fun _ => envOK) [(fileA, "X")] false).1 tempfileN =
      none :=
  ⟨by decide,
   (C6_remove_amended (fun _ => envOK) [(fileA, "X")] false).2.1 (by decide)⟩

/-- C7: a missing binary is reported distinctly from a non-zero exit
(third vs first evaluation below), but the captured standard-error text
is NEVER reported: eps2eps exiting 1 with captured stderr "boom" still
yields the "Standard error was empty." note, because the raise sites
pass the bytes as CalledProcessError's third positional argument, which
is `output`, leaving the `stderr` attribute None — so no run of the
script can ever print a captured stderr text. -/
theorem C7_stderr_never_reported :
    (process_schematic envBoom [(fileA, "X")] fileA false).2 =
      [Event.printProcessing fileA,
       Event.call eps2epsN [tempfileN, tempfileEpsN],
       Event.printErrorProcessing fileA 1 eps2epsN,
       Event.printStderrEmpty] ∧
    (process_schematic envMissing1 [(fileA, "X")] fileA false).2 =
      [Event.printProcessing fileA,
       Event.call eps2epsN [tempfileN, tempfileEpsN],
       Event.printToolNotFound eps2epsN] ∧
    (∀ (env : Env) (fs : FS) (f : Name) (u : Bool) (b : List Nat),
      Event.printStderr b ∉ (process_schematic env fs f u).2) := by
  refine ⟨by decide, by decide, ?_⟩
  intro env fs f u b
  exact (process_schematic_chars env fs f u).2.2 b

/-- C8: the -uselibname flag is parsed and stripped but never consulted:
an argument vector with the flag inserted anywhere produces exactly the
same final filesystem, trace and exit error as the vector without it, and
process_schematic itself is independent of its use_libname parameter. -/
theorem C8_uselibname_no_effect (envf : Name → Env) (fs : FS)
    (l1 l2 : List Name) (h : uselibnameN ∉ l1 ++ l2) :
    main envf fs (l1 ++ uselibnameN :: l2) = main envf fs (l1 ++ l2) ∧
    (∀ (env : Env) (fs2 : FS) (f : Name),
      process_schematic env fs2 f true = process_schematic env fs2 f false) := by
  refine ⟨?_, fun env fs2 f => process_ignores_libname env fs2 f⟩
  have h1 : uselibnameN ∉ l1 := fun hx => h (List.mem_append_left _ hx)
  have hmem : uselibnameN ∈ l1 ++ uselibnameN :: l2 := by simp
  have herase : (l1 ++ uselibnameN :: l2).erase uselibnameN = l1 ++ l2 := by
    rw [List.erase_append_right _ h1, List.erase_cons_head]
  simp only [main, decide_eq_true hmem, decide_eq_false h, Bool.false_eq_true,
    if_true, if_false, herase]
  by_cases hlen : 1 < (l1 ++ l2).length
  · simp only [if_pos hlen]
    rfl
  · simp only [if_neg hlen]
    exact main_batch_ignores_libname envf fs

/-- Witness for C8 with argv `[prog, -uselibname, a.eps]`. -/
theorem C8_uselibname_no_effect_witness :
    main (fun _ => envOK) [(fileA, "X")]
        (["prog".toList] ++ uselibnameN :: [fileA]) =
      main (fun _ => envOK) [(fileA, "X")] (["prog".toList] ++ [fileA]) ∧
    (∀ (env : Env) (fs2 : FS) (f : Name),
      process_schematic env fs2 f true = process_schematic env fs2 f false) :=
  C8_uselibname_no_effect (fun _ => envOK) [(fileA, "X")] ["prog".toList]
    [fileA] (by decide)

/-- C9 counterexample: the input named "temp" is eligible for
conversion, yet a fully successful pipeline run deletes it: epstool
writes its output over "temp" and mv then moves that file away, so the
input is not intact afterwards. -/
theorem C9_temp_input_clobbered_counterexample :
    fsGet [(tempN, "X")] tempN = some "X" ∧
    eligibleB [(tempN, "X")] tempN = true ∧
    fsGet (process_schematic envOK [(tempN, "X")] tempN false).1 tempN =
      none := by
  decide

/-- C9 (amended): for every processed input file whose name is not one of
the reserved working names "tempfile", "tempfile.eps" and "temp" (and
which, like every eligible input, does not end in .pdf), the input file's
content is identical before and after its conversion, whether the
conversion succeeds or fails. -/
theorem C9_input_preserved_amended (env : Env) (fs : FS) (f : Name) (u : Bool)
    (h1 : f ≠ tempfileN) (h2 : f ≠ tempfileEpsN) (h3 : f ≠ tempN)
    (h4 : endswith f pdfExtN = false) :
    fsGet (process_schematic env fs f u).1 f = fsGet fs f :=
  (process_schematic_chars env fs f u).1 f h1 h2 h3
    (ne_pdfPath_of_not_endswith f h4)

/-- Witness for C9 (amended): `a.eps` is intact after a failing run. -/
theorem C9_input_preserved_amended_witness :
    fsGet (process_schematic envBoom [(fileA, "X")] fileA false).1 fileA =
      fsGet [(fileA, "X")] fileA :=
  C9_input_preserved_amended envBoom [(fileA, "X")] fileA false (by decide)
    (by decide) (by decide) (by decide)

/-- C10: with -uselibname given twice, only the first occurrence is
removed, a positional argument remains, and the program runs in
single-file mode on the literal name "-uselibname" (reporting it as not
found when no such file exists) instead of entering batch mode. -/
theorem C10_double_flag_single_mode (envf : Name → Env) (fs : FS)
    (prog : Name) (hp : prog ≠ uselibnameN) :
    main envf fs [prog, uselibnameN, uselibnameN] =
      ((main_single (envf uselibnameN) fs uselibnameN true).1,
       (main_single (envf uselibnameN) fs uselibnameN true).2, none) ∧
    (fsGet fs uselibnameN = none →
      (main envf fs [prog, uselibnameN, uselibnameN]).2.1 =
        [Event.printFileNotFound uselibnameN]) := by
  have hmem : uselibnameN ∈ [prog, uselibnameN, uselibnameN] := by simp
  have hb : ¬((prog == uselibnameN) = true) := by simpa using hp
  have herase : [prog, uselibnameN, uselibnameN].erase uselibnameN =
      [prog, uselibnameN] := by
    rw [List.erase_cons_tail hb, List.erase_cons_head]
  have hmain : main envf fs [prog, uselibnameN, uselibnameN] =
      ((main_single (envf uselibnameN) fs uselibnameN true).1,
       (main_single (envf uselibnameN) fs uselibnameN true).2, none) := by
    simp only [main, decide_eq_true hmem, if_true, herase]
    norm_num [List.getElem?_cons_succ, List.getElem?_cons_zero]
  refine ⟨hmain, ?_⟩
  intro hnf
  rw [hmain]
  have helig : eligibleB fs uselibnameN = false := by simp [eligibleB, hnf]
  simp [main_single, helig, hnf]

/-- Witness for C10 with argv `[prog, -uselibname, -uselibname]` in an
empty directory. -/
theorem C10_double_flag_single_mode_witness :
    main (fun _ => envOK) [] ["prog".toList, uselibnameN, uselibnameN] =
      ((main_single envOK [] uselibnameN true).1,
       (main_single envOK [] uselibnameN true).2, none) ∧
    (fsGet [] uselibnameN = none →
      (main (fun _ => envOK) [] ["prog".toList, uselibnameN, uselibnameN]).2.1 =
        [Event.printFileNotFound uselibnameN]) :=
  C10_double_flag_single_mode (fun _ => envOK) [] "prog".toList (by decide)

end ProcessSchematics
